import Mathlib

/-!
# Verification of the rdb_protocol btree execution layer

A shallow embedding of `src/rdb_protocol/btree.cc`: point operations
(`rdb_get`, `rdb_set`, `rdb_delete`), range erase (`rdb_erase_range`),
backfill (`rdb_backfill` and `agnostic_rdb_backfill_callback_t`), the
transform pipeline (`transform_visitor_t`), the terminal reducer
(`terminal_initializer_visitor_t`, `terminal_visitor_t`) and the range
scan engine (`rdb_rget_depth_first_traversal_callback_t::handle_pair`
and `rdb_rget_slice`).

External collaborators (the storage engine's traversal and lookup
primitives, the key/range types of `btree/keys.hpp`, and the value
codec) are not part of the source file; where a claim depends on them
they are modelled from the specification, and each such definition says
so in its doc comment.
-/

set_option autoImplicit false

namespace RdbBtree

/-- A store key: an opaque, totally ordered byte sequence (spec §3). -/
abbrev Key := List Nat

/-- Strict lexicographic (byte-wise) order on keys, modelling
`store_key_t::operator<` (external to the source file). -/
def keyLt : Key → Key → Bool
  | _, [] => false
  | [], _ :: _ => true
  | a :: as, b :: bs => a < b || (a == b && keyLt as bs)

/-- Non-strict key order, derived from `keyLt` (a total order). -/
def keyLe (x y : Key) : Bool := !(keyLt y x)

/-- A scalar JSON value (a leaf of a cJSON tree). -/
inductive JAtom where
  | null
  | num (n : Int)
  | str (s : List Nat)
  deriving DecidableEq, Repr

/-- A document: the JSON-like value held behind a `scoped_cJSON_t`
handle.  Documents in this file are opaque to everything except the
`Builtin_Range` transform, which looks up one attribute; a document is
therefore modelled as a scalar or a one-level object. -/
inductive CJson where
  | atom (a : JAtom)
  | obj (fields : List (List Nat × JAtom))
  deriving DecidableEq, Repr

/-- Modelled from the spec: the canonical byte rendering of a scalar
value (`cJSON_print_std_string` / `scoped_cJSON_t::Print`, external to
the source file).  The same rendering is used for range boundary values
and for attribute values, which is all the claims depend on. -/
def printAtom : JAtom → List Nat
  | .null => [110, 117, 108, 108]
  | .num (.ofNat n) => 48 :: Nat.digits 10 n
  | .num (.negSucc n) => 45 :: 48 :: Nat.digits 10 (n + 1)
  | .str s => 34 :: (s ++ [34])

/-- Modelled from the spec: the canonical byte rendering of a document
(`scoped_cJSON_t::Print`), consistent with `printAtom` on scalars. -/
def printDoc : CJson → List Nat
  | .atom a => printAtom a
  | .obj fields => 123 :: (fields.foldr (fun (f : List Nat × JAtom) acc =>
      f.1 ++ [58] ++ printAtom f.2 ++ [44] ++ acc) [125])

/-- Lookup `cJSON::GetObjectItem`: looks up an attribute in an object document;
`none` both for a missing attribute and for a non-object document
(external cJSON behaviour, modelled from the spec: "reads doc[attr]"). -/
def getObjectItem (doc : CJson) (attr : List Nat) : Option JAtom :=
  match doc with
  | .atom _ => none
  | .obj fields => (fields.find? (fun f => f.1 = attr)).map (·.2)

/-! ## Value codec

Modelled from the spec (§4.1): the serialization used by `rdb_set`
(`write_message_t` / `send_write_message`) and the deserialization used
by `get_data` are external to the source file.  The spec requires an
encode/decode pair where decoding a well-formed encoding succeeds and
returns the original document. -/

/-- Modelled from the spec: encode a natural number as a
self-delimiting byte sequence. -/
def encodeNat (n : Nat) : List Nat :=
  List.replicate n 1 ++ [0]

/-- Modelled from the spec: decode a natural number, returning the
remaining bytes. -/
def decodeNat : List Nat → Option (Nat × List Nat)
  | [] => none
  | 0 :: rest => some (0, rest)
  | 1 :: rest => (decodeNat rest).map (fun p => (p.1 + 1, p.2))
  | _ :: _ => none

/-- Modelled from the spec: encode an integer (sign byte, magnitude). -/
def encodeInt : Int → List Nat
  | .ofNat n => 0 :: encodeNat n
  | .negSucc n => 1 :: encodeNat n

/-- Modelled from the spec: decode an integer. -/
def decodeInt : List Nat → Option (Int × List Nat)
  | 0 :: rest => (decodeNat rest).map (fun p => (Int.ofNat p.1, p.2))
  | 1 :: rest => (decodeNat rest).map (fun p => (Int.negSucc p.1, p.2))
  | _ => none

/-- Modelled from the spec: read exactly `n` bytes. -/
def readBytes : Nat → List Nat → Option (List Nat × List Nat)
  | 0, l => some ([], l)
  | _ + 1, [] => none
  | n + 1, b :: l => (readBytes n l).map (fun p => (b :: p.1, p.2))

/-- Modelled from the spec: encode a length-prefixed byte sequence. -/
def encodeBytes (s : List Nat) : List Nat :=
  encodeNat s.length ++ s

/-- Modelled from the spec: decode a length-prefixed byte sequence. -/
def decodeBytes (l : List Nat) : Option (List Nat × List Nat) :=
  (decodeNat l).bind (fun p => readBytes p.1 p.2)

/-- Modelled from the spec: encode a scalar value. -/
def encodeAtom : JAtom → List Nat
  | .null => [0]
  | .num i => 1 :: encodeInt i
  | .str s => 2 :: encodeBytes s

/-- Modelled from the spec: decode a scalar value. -/
def decodeAtom : List Nat → Option (JAtom × List Nat)
  | 0 :: rest => some (.null, rest)
  | 1 :: rest => (decodeInt rest).map (fun p => (.num p.1, p.2))
  | 2 :: rest => (decodeBytes rest).map (fun p => (.str p.1, p.2))
  | _ => none

/-- Modelled from the spec: encode an object's field list. -/
def encodeFields : List (List Nat × JAtom) → List Nat
  | [] => []
  | f :: fs => encodeBytes f.1 ++ encodeAtom f.2 ++ encodeFields fs

/-- Modelled from the spec: decode `n` object fields. -/
def decodeFields : Nat → List Nat → Option (List (List Nat × JAtom) × List Nat)
  | 0, l => some ([], l)
  | n + 1, l =>
    (decodeBytes l).bind (fun pk =>
      (decodeAtom pk.2).bind (fun pa =>
        (decodeFields n pa.2).map (fun pf => ((pk.1, pa.1) :: pf.1, pf.2))))

/-- Modelled from the spec: `encode(doc) -> bytes`, the canonical
serialized form written by `rdb_set` through the blob. -/
def serialize : CJson → List Nat
  | .atom a => 0 :: encodeAtom a
  | .obj fields => 1 :: encodeNat fields.length ++ encodeFields fields

/-- Modelled from the spec: one document parsed from the front of a
byte stream. -/
def parseDoc : List Nat → Option (CJson × List Nat)
  | 0 :: rest => (decodeAtom rest).map (fun p => (CJson.atom p.1, p.2))
  | 1 :: rest =>
    (decodeNat rest).bind (fun pn =>
      (decodeFields pn.1 pn.2).map (fun pf => (CJson.obj pf.1, pf.2)))
  | _ => none

/-- Modelled from the spec: `decode(ref, txn) -> Document` (`get_data`'s
deserialization); the whole stream must be consumed, and a stream that
does not parse is a corruption error (`none`; the source aborts via
`guarantee_err`). -/
def deserializeDoc (l : List Nat) : Option CJson :=
  match parseDoc l with
  | some (d, []) => some d
  | _ => none

/-! ## Point Operation Engine (`rdb_get`, `rdb_set`, `rdb_delete`)

The btree leaf store reached through `find_keyvalue_location_for_read`
/ `find_keyvalue_location_for_write` is modelled as a map from keys to
the serialized value bytes held behind the key's `rdb_value_t` blob. -/

/-- The leaf store: each present key holds the serialized bytes of its
document (the blob contents behind its value reference). -/
def Store := Key → Option (List Nat)

/-- Outcome of a point write (`point_write_response_t`). -/
inductive PointWriteOutcome where
  | STORED
  | DUPLICATE
  deriving DecidableEq, Repr

/-- Outcome of a point delete (`point_delete_response_t`). -/
inductive PointDeleteOutcome where
  | DELETED
  | MISSING
  deriving DecidableEq, Repr

/-- Function `rdb_get`: looks up the key's leaf location; absent keys give the
empty response, present keys are decoded by `get_data`.  (On a present
key whose bytes do not parse the source aborts the call through
`guarantee_err`; that path is collapsed into `none` here and is
unreachable from states written by `rdb_set`.) -/
def rdb_get (store_key : Key) (st : Store) : Option CJson :=
  match st store_key with
  | none => none
  | some bytes => deserializeDoc bytes

/-- Result of `rdb_set`: the updated store and the response. -/
structure SetResult where
  state : Store
  response : PointWriteOutcome

/-- Function `rdb_set`: finds the key's location for write, records whether a
value already existed, writes the freshly serialized document into a
fresh zeroed value, swaps it in, and applies the change under
`timestamp`; responds `DUPLICATE` when a prior value existed, else
`STORED`. -/
def rdb_set (key : Key) (data : CJson) (_timestamp : Nat) (st : Store) : SetResult :=
  let already_existed := (st key).isSome
  let new_state : Store := fun k => if k = key then some (serialize data) else st k
  ⟨new_state, if already_existed then .DUPLICATE else .STORED⟩

/-- Result of `rdb_delete`: the updated store and the response. -/
structure DeleteResult where
  state : Store
  response : PointDeleteOutcome

/-- Function `rdb_delete`: finds the key's location for write; when a value
exists it clears the blob, resets the value, and applies the change
under `timestamp`; when absent it applies no mutation.  Responds
`DELETED` when a value existed, else `MISSING`. -/
def rdb_delete (key : Key) (_timestamp : Nat) (st : Store) : DeleteResult :=
  let exists_ := (st key).isSome
  if exists_ then
    ⟨fun k => if k = key then none else st k, .DELETED⟩
  else
    ⟨st, .MISSING⟩

/-! ## Key ranges and the Range Erase Engine (`rdb_erase_range`)

`key_range_t` and `store_key_t::decrement` live in `btree/keys.hpp`,
outside the source file; they are modelled from the spec (§3): a
`key_range_t` has an inclusive concrete left key and a right bound that
is either unbounded or an exclusive concrete key, and keys support
predecessor computation. -/

/-- The right bound of a `key_range_t`: unbounded, or an exclusive
concrete key. -/
structure RightBound where
  unbounded : Bool
  key : Key
  deriving DecidableEq, Repr

/-- A `key_range_t` (modelled from the spec §3): inclusive concrete
left key, and a right bound per `RightBound`. -/
structure KeyRangeT where
  left : Key
  right : RightBound
  deriving DecidableEq, Repr

/-- Predicate `key_range_t::contains_key` (modelled from the spec §3). -/
def KeyRangeT.contains_key (r : KeyRangeT) (k : Key) : Bool :=
  keyLe r.left k && (r.right.unbounded || keyLt k r.right.key)

/-- Predicate `key_range_t::is_superset` (modelled from the spec §3): `r` covers
every key of `inner`. -/
def KeyRangeT.is_superset (r inner : KeyRangeT) : Bool :=
  keyLe r.left inner.left &&
    (r.right.unbounded ||
      (!inner.right.unbounded && keyLe inner.right.key r.right.key))

/-- Maximum key length used when padding a predecessor
(`MAX_KEY_SIZE`, external constant). -/
def MAX_KEY_SIZE : Nat := 250

/-- Modelled from the spec: `store_key_t::decrement`, the predecessor
computation on keys (§3).  The empty (minimal) key has no predecessor;
a key ending in a zero byte loses it; otherwise the last byte is
decremented and the key is padded with maximal bytes. -/
def store_key_decrement (k : Key) : Option Key :=
  match k.reverse with
  | [] => none
  | 0 :: rest => some rest.reverse
  | (b + 1) :: rest =>
    some (rest.reverse ++ [b] ++ List.replicate (MAX_KEY_SIZE - k.length) 255)

/-- The bounds handed to `btree_erase_range_generic`: `none` stands for
the `NULL` passed for an unsupplied side. -/
structure EraseCallBounds where
  left_exclusive : Option Key
  right_inclusive : Option Key
  deriving DecidableEq, Repr

/-- Function `rdb_erase_range` (the `key_range_t` overload): copies the range's
left key and right key, decrements the left copy (the success of the
decrement decides whether a left bound is supplied at all), supplies a
right bound exactly when the range's right side is bounded, and
decrements the right copy in place when supplied (the source ignores
that decrement's success, keeping the undecremented key on failure).
The resulting pair is handed to the generic range-erase primitive. -/
def rdb_erase_range_bounds (keys : KeyRangeT) : EraseCallBounds :=
  let left_exclusive := keys.left
  let right_inclusive := keys.right.key
  let left_decremented := store_key_decrement left_exclusive
  let right_key_supplied := !keys.right.unbounded
  { left_exclusive := left_decremented
    right_inclusive :=
      if right_key_supplied then
        some ((store_key_decrement right_inclusive).getD right_inclusive)
      else
        none }

/-- The spec's description of the same conversion (§4.3 / claim C7):
the exclusive left key is the predecessor of the left bound, the
inclusive right key is the predecessor of the right bound when the
right side is bounded, and an unbounded side is passed through as
unbounded. -/
def erase_bounds_spec (keys : KeyRangeT) : EraseCallBounds :=
  { left_exclusive := store_key_decrement keys.left
    right_inclusive :=
      if keys.right.unbounded then none
      else store_key_decrement keys.right.key }

/-! ## Backfill Engine (`agnostic_rdb_backfill_callback_t`, `rdb_backfill`) -/

/-- A replication atom (`rdb_protocol_details::backfill_atom_t`):
key, document and recency. -/
structure BackfillAtom where
  key : Key
  value : CJson
  recency : Nat
  deriving DecidableEq, Repr

/-- One event delivered by the agnostic backfill traversal primitive to
the callback (`on_delete_range` / `on_deletion` / `on_pair`).  A pair
event carries the already-decoded document (`get_data`'s decoding is
the codec above). -/
inductive BackfillEvent where
  | delete_range (range : KeyRangeT)
  | deletion (key : Key) (recency : Nat)
  | pair (key : Key) (value : CJson) (recency : Nat)
  deriving DecidableEq, Repr

/-- One call forwarded to the user's `rdb_backfill_callback_t`. -/
inductive BackfillOut where
  | on_delete_range (range : KeyRangeT)
  | on_deletion (key : Key) (recency : Nat)
  | on_keyvalue (atom : BackfillAtom)
  deriving DecidableEq, Repr

/-- The bound checked by the `rassert` guarding each callback method:
range events must be a subset of the requested range, key events must
have their key inside it. -/
def backfill_event_ok (kr : KeyRangeT) : BackfillEvent → Bool
  | .delete_range range => kr.is_superset range
  | .deletion key _ => kr.contains_key key
  | .pair key _ _ => kr.contains_key key

/-- Wrapper `agnostic_rdb_backfill_callback_t` handling one event: the
`rassert` checks the event against the stored range `kr_` and aborts on
violation (`none`); otherwise the event is forwarded to the wrapped
callback (a pair event is repackaged as a `backfill_atom_t` whose key,
decoded value and recency come from the event). -/
def handle_backfill_event (kr : KeyRangeT) : BackfillEvent → Option BackfillOut
  | .delete_range range =>
    if kr.is_superset range then some (.on_delete_range range) else none
  | .deletion key recency =>
    if kr.contains_key key then some (.on_deletion key recency) else none
  | .pair key value recency =>
    if kr.contains_key key then
      some (.on_keyvalue ⟨key, value, recency⟩)
    else none

/-- Function `rdb_backfill`: wraps the user callback in an
`agnostic_rdb_backfill_callback_t` holding the requested range and runs
the traversal (`do_agnostic_btree_backfill`, external), which delivers
a sequence of events; `none` when any event trips an assertion. -/
def rdb_backfill (key_range : KeyRangeT) :
    List BackfillEvent → Option (List BackfillOut)
  | [] => some []
  | e :: rest =>
    (handle_backfill_event key_range e).bind (fun o =>
      (rdb_backfill key_range rest).map (fun os => o :: os))

/-- The range a forwarded callback argument must lie in, per the
interface guarantee (spec §6): key events inside the range, range
events a subset of it. -/
def backfill_out_in_range (kr : KeyRangeT) : BackfillOut → Bool
  | .on_delete_range range => kr.is_superset range
  | .on_deletion key _ => kr.contains_key key
  | .on_keyvalue atom => kr.contains_key atom.key

/-! ## Transform Pipeline (`transform_visitor_t`)

The query-language evaluator is an external collaborator; the opaque
callables it supplies (predicate, mapping, stream mapping, evaluated
bound expressions) appear as function and value fields of the step. -/

/-- One transform step (`rdb_protocol_details::transform_t` holds a
list of these variants).  `range` carries the already-evaluated lower
and upper bound values (`eval` of the bound expressions is external and
is performed before the containment test in the source). -/
inductive TransformStep where
  | filter (predicate : CJson → Bool)
  | map (mapping : CJson → CJson)
  | concatMap (mapping : CJson → List CJson)
  | range (attrname : List Nat) (lowerbound upperbound : Option CJson)

/-- The `key_range_t` built by the `Builtin_Range` case, reduced to
what that case uses of it: an optional inclusive lower key and an
optional inclusive upper key (the source builds the range with `closed`
bounds, `none` on an absent side).  With both bounds absent the source
keeps the default-constructed `key_range_t`; that constructor is
external, modelled from the spec ("absent bounds = unbounded on that
side"). -/
structure BoundsRange where
  lo : Option Key
  hi : Option Key
  deriving DecidableEq, Repr

/-- Containment in a `BoundsRange`: between the inclusive bounds, an
absent bound unconstrained. -/
def BoundsRange.contains_key (r : BoundsRange) (k : Key) : Bool :=
  (match r.lo with | none => true | some lo => keyLe lo k) &&
  (match r.hi with | none => true | some hi => keyLe k hi)

/-- Visitor `transform_visitor_t`: applies one step to one document, appending
the step's output documents (in order) to the output list.
  * `Builtin_Filter`: emit the document iff the predicate holds;
  * `Builtin_Map`: emit the mapped document;
  * `Builtin_ConcatMap`: drain the mapping's stream in order;
  * `Builtin_Range`: build the key range from the evaluated bounds,
    look up the attribute, and emit the document iff the attribute is
    present and its printed value is contained in the range. -/
def transform_visitor : TransformStep → CJson → List CJson
  | .filter predicate, json => if predicate json then [json] else []
  | .map mapping, json => [mapping json]
  | .concatMap mapping, json => mapping json
  | .range attrname lowerbound upperbound, json =>
    let key_range : BoundsRange :=
      match lowerbound, upperbound with
      | some lo, some hi => ⟨some (printDoc lo), some (printDoc hi)⟩
      | some lo, none => ⟨some (printDoc lo), none⟩
      | none, some hi => ⟨none, some (printDoc hi)⟩
      | none, none => ⟨none, none⟩
    match getObjectItem json attrname with
    | some val =>
      if key_range.contains_key (printAtom val) then [json] else []
    | none => []

/-- The inner loop of `handle_pair` for one transform step: `tmp`
starts empty and each document of `data` has the step's visitor output
appended to it in order. -/
def apply_step_to_list (step : TransformStep) (data : List CJson) : List CJson :=
  data.foldl (fun tmp jt => tmp ++ transform_visitor step jt) []

/-- The transform loop of `handle_pair`: the steps are applied in
declared order, each consuming the previous step's output list. -/
def apply_transforms (transform : List TransformStep) (data : List CJson) : List CJson :=
  transform.foldl (fun d step => apply_step_to_list step d) data

/-! ## Terminal Reducer and result variant -/

/-- One terminal operation (`rdb_protocol_details::terminal_t`).  The
query-language evaluations inside each variant are external opaque
callables, appearing as function and value fields:
  * `groupedMapReduce`: grouping mapping, value mapping, evaluated
    reduction base, and reduction body;
  * `reduction`: reduction body over (accumulator, document);
  * `length`: the `Count` terminal (`rdb_protocol_details::Length`);
  * `forEach`: executes write sub-queries for each document (their
    effects are outside the scan's own response and are not part of the
    result accumulator). -/
inductive TerminalOp where
  | groupedMapReduce (group_mapping : CJson → CJson) (value_mapping : CJson → CJson)
      (base : CJson) (body : CJson → CJson → CJson)
  | reduction (body : CJson → CJson → CJson)
  | length
  | forEach

/-- Type `rget_read_response_t::result_t`: the result variant of a scan. -/
inductive RgetResult where
  | stream (docs : List CJson)
  | groups (m : List (CJson × CJson))
  | atom (a : CJson)
  | length (n : Nat)
  | inserted
  deriving DecidableEq, Repr

/-- Assoc-list lookup with default (`get_with_default` over the
`groups_t` map). -/
def groups_get_with_default (m : List (CJson × CJson)) (k : CJson) (dflt : CJson) : CJson :=
  match m.find? (fun p => p.1 = k) with
  | some p => p.2
  | none => dflt

/-- Assoc-list store (`(*res_groups)[grouping] = v`): replaces the
entry for `k` or appends a fresh one. -/
def groups_store (m : List (CJson × CJson)) (k : CJson) (v : CJson) : List (CJson × CJson) :=
  match m with
  | [] => [(k, v)]
  | p :: rest => if p.1 = k then (k, v) :: rest else p :: groups_store rest k v

/-- Visitor `terminal_initializer_visitor_t`: sets the result variant for the
configured terminal (`groups_t()` / `atom_t()` / `length_t()` /
`inserted_t()`, each freshly default-constructed). -/
def terminal_initializer_visitor : TerminalOp → RgetResult
  | .groupedMapReduce _ _ _ _ => .groups []
  | .reduction _ => .atom (.atom .null)
  | .length => .length 0
  | .forEach => .inserted

/-- Visitor `terminal_visitor_t`: folds one document into the result
accumulator.  Each case `guarantee`s that the variant matches; a
mismatch aborts the call in the source and leaves the result unchanged
here (unreachable after the initializer has run).
  * grouped map/reduce: group key and folded value come from the two
    mappings, the group's current accumulator defaults to the base;
  * reduction: accumulator becomes `body accumulator document`;
  * `Length`: `res_length->length++`;
  * `ForEach`: executes the write sub-queries; the accumulator is not
    touched. -/
def terminal_visitor (t : TerminalOp) (json : CJson) (out : RgetResult) : RgetResult :=
  match t, out with
  | .groupedMapReduce group_mapping value_mapping base body, .groups res_groups =>
    let grouping := group_mapping json
    let json_cpy := value_mapping json
    let current := groups_get_with_default res_groups grouping base
    .groups (groups_store res_groups grouping (body current json_cpy))
  | .reduction body, .atom res_atom => .atom (body res_atom json)
  | .length, .length n => .length (n + 1)
  | .forEach, .inserted => .inserted
  | _, out => out

/-! ## Range Scan Engine (`rdb_rget_depth_first_traversal_callback_t`,
`rdb_rget_slice`) -/

/-- The per-document response-size heuristic
(`estimate_rget_response_size`): a constant, ignoring the document. -/
def estimate_rget_response_size (_json : CJson) : Nat := 250

/-- The fixed chunk-size budget (`rget_max_chunk_size`, an external
tunable constant; spec §6).  Its value is irrelevant to the theorems
below; a small concrete value keeps witnesses computable. -/
def rget_max_chunk_size : Nat := 1000

/-- The mutable state of the traversal callback: the response being
built (result variant and last considered key) and the running
`cumulative_size`.  `oob_back_access` instruments the source's
`stream->back()` read, which is undefined behaviour when the stream is
empty; it records whether any update of the size estimate read the back
of an empty stream. -/
structure CallbackState where
  result : RgetResult
  last_considered_key : Key
  cumulative_size : Nat
  oob_back_access : Bool

/-- The state a fresh `rdb_rget_depth_first_traversal_callback_t`
starts from: a default-constructed response (empty stream result,
minimal last considered key) and zero cumulative size. -/
def initial_callback_state : CallbackState :=
  ⟨.stream [], [], 0, false⟩

/-- Function `handle_pair`: one visited entry.  Updates `last_considered_key`,
decodes the entry's document (the traversal here supplies it decoded;
`get_data` is the codec above), runs it through the transform loop, and
then:
  * without a terminal: `guarantee`s the result is a stream (a
    non-stream result aborts the call in the source; modelled by
    stopping the traversal), appends the pipeline output to it, adds
    the estimated size of the stream's back element (flagging the read
    when the stream is empty), and continues while the stream is
    shorter than `maximum` and the cumulative size is below the chunk
    budget;
  * with a terminal: applies the terminal initializer visitor to the
    result, then folds each output document in with the terminal
    visitor, and always continues. -/
def handle_pair (maximum : Nat) (transform : List TransformStep)
    (terminal : Option TerminalOp) (st : CallbackState)
    (key : Key) (value : CJson) : CallbackState × Bool :=
  let last :=
    if keyLt st.last_considered_key key then key else st.last_considered_key
  let data := apply_transforms transform [value]
  match terminal with
  | none =>
    match st.result with
    | .stream s =>
      let s1 := s ++ data
      let add :=
        match s1.getLast? with
        | some back => estimate_rget_response_size back
        | none => estimate_rget_response_size (.atom .null)
      let cum := st.cumulative_size + add
      (⟨.stream s1, last, cum, st.oob_back_access || s1.isEmpty⟩,
        decide (s1.length < maximum) && decide (cum < rget_max_chunk_size))
    | _ => (⟨st.result, last, st.cumulative_size, st.oob_back_access⟩, false)
  | some t =>
    let r0 := terminal_initializer_visitor t
    let r1 := data.foldl (fun r jt => terminal_visitor t jt r) r0
    (⟨r1, last, st.cumulative_size, st.oob_back_access⟩, true)

/-- Traversal `btree_depth_first_traversal` (external primitive, modelled from
the spec §6): feeds the in-range entries, in ascending key order, to
the callback, stopping as soon as the callback returns `false`. -/
def run_traversal (maximum : Nat) (transform : List TransformStep)
    (terminal : Option TerminalOp) :
    CallbackState → List (Key × CJson) → CallbackState
  | st, [] => st
  | st, (key, value) :: rest =>
    let step := handle_pair maximum transform terminal st key value
    if step.2 then run_traversal maximum transform terminal step.1 rest
    else step.1

/-- The number of entries the traversal actually hands to the callback
(every entry up to and including the first one whose callback returns
`false`). -/
def traversal_processed_count (maximum : Nat) (transform : List TransformStep)
    (terminal : Option TerminalOp) :
    CallbackState → List (Key × CJson) → Nat
  | _, [] => 0
  | st, (key, value) :: rest =>
    let step := handle_pair maximum transform terminal st key value
    if step.2 then
      1 + traversal_processed_count maximum transform terminal step.1 rest
    else 1

/-- The completed response of `rdb_rget_slice`. -/
structure RgetResponse where
  result : RgetResult
  last_considered_key : Key
  cumulative_size : Nat
  truncated : Bool

/-- Function `rdb_rget_slice`: constructs the callback with the request's
`maximum`, transform and terminal, drives the depth-first traversal
over the range's entries, and then sets `truncated` to `true` exactly
when the callback's cumulative size is at least `rget_max_chunk_size`,
else `false`. -/
def rdb_rget_slice (maximum : Nat) (transform : List TransformStep)
    (terminal : Option TerminalOp) (entries : List (Key × CJson)) : RgetResponse :=
  let cb := run_traversal maximum transform terminal initial_callback_state entries
  { result := cb.result
    last_considered_key := cb.last_considered_key
    cumulative_size := cb.cumulative_size
    truncated := if cb.cumulative_size ≥ rget_max_chunk_size then true else false }

/-- The spec's description of the RangeFilter step (§4.5 / claim C8),
written from the spec's words for comparison with the source's
`transform_visitor`: the document is emitted exactly when the attribute
is present and its canonical key lies between the canonical keys of the
evaluated bounds, an absent bound being unconstrained on its side
(including the case where both bounds are absent). -/
def range_filter_spec_emits (attrname : List Nat)
    (lowerbound upperbound : Option CJson) (doc : CJson) : Bool :=
  match getObjectItem doc attrname with
  | none => false
  | some val =>
    (match lowerbound with
     | none => true
     | some lo => keyLe (printDoc lo) (printAtom val)) &&
    (match upperbound with
     | none => true
     | some hi => keyLe (printAtom val) (printDoc hi))

/-! ### Codec round trip -/

theorem decodeNat_encodeNat (n : Nat) (rest : List Nat) :
    decodeNat (encodeNat n ++ rest) = some (n, rest) := by
  induction n with
  | zero => simp [encodeNat, decodeNat]
  | succ k ih =>
    have hstep : encodeNat (k + 1) ++ rest = 1 :: (encodeNat k ++ rest) := by
      simp [encodeNat, List.replicate_succ]
    rw [hstep]
    simp [decodeNat, ih]

theorem decodeInt_encodeInt (i : Int) (rest : List Nat) :
    decodeInt (encodeInt i ++ rest) = some (i, rest) := by
  cases i <;> simp [encodeInt, decodeInt, decodeNat_encodeNat]

theorem readBytes_append (s rest : List Nat) :
    readBytes s.length (s ++ rest) = some (s, rest) := by
  induction s with
  | nil => rfl
  | cons b bs ih => simp [readBytes, ih]

theorem decodeBytes_encodeBytes (s rest : List Nat) :
    decodeBytes (encodeBytes s ++ rest) = some (s, rest) := by
  simp [decodeBytes, encodeBytes, decodeNat_encodeNat, readBytes_append]

theorem decodeAtom_encodeAtom (a : JAtom) (rest : List Nat) :
    decodeAtom (encodeAtom a ++ rest) = some (a, rest) := by
  cases a with
  | null => rfl
  | num i => simp [encodeAtom, decodeAtom, decodeInt_encodeInt]
  | str s => simp [encodeAtom, decodeAtom, decodeBytes_encodeBytes]

theorem decodeFields_encodeFields (fs : List (List Nat × JAtom)) (rest : List Nat) :
    decodeFields fs.length (encodeFields fs ++ rest) = some (fs, rest) := by
  induction fs with
  | nil => rfl
  | cons f fs ih =>
    simp [encodeFields, decodeFields, decodeBytes_encodeBytes, decodeAtom_encodeAtom, ih]

theorem parseDoc_serialize (d : CJson) (rest : List Nat) :
    parseDoc (serialize d ++ rest) = some (d, rest) := by
  cases d with
  | atom a => simp [serialize, parseDoc, decodeAtom_encodeAtom]
  | obj fields =>
    simp [serialize, parseDoc, decodeNat_encodeNat, decodeFields_encodeFields]

/-- The codec round trip required by the spec (§4.1): deserializing a
document's canonical serialized form returns the document. -/
theorem deserializeDoc_serialize (d : CJson) :
    deserializeDoc (serialize d) = some d := by
  have h := parseDoc_serialize d []
  simp only [List.append_nil] at h
  simp [deserializeDoc, h]

/-! ### Point operations (claims C5, C6) -/

/-- C5: for every key `k` and document `d`, `set(k, d, t)` followed by
`get(k)` returns `some d`; `set` on a key with an existing prior value
responds `DUPLICATE`, `set` on a fresh key responds `STORED`, and in
both cases the subsequent `get(k)` returns the latest document
written. -/
theorem C5_set_get_round_trip (st : Store) (key : Key) (d : CJson) (t : Nat) :
    rdb_get key (rdb_set key d t st).state = some d ∧
    ((st key).isSome → (rdb_set key d t st).response = .DUPLICATE) ∧
    (st key = none → (rdb_set key d t st).response = .STORED) := by
  refine ⟨?_, ?_, ?_⟩
  · simp [rdb_get, rdb_set, deserializeDoc_serialize]
  · intro h
    simp [rdb_set, h]
  · intro h
    simp [rdb_set, h]

/-- Witness for C5 at a concrete store holding key `[1]`: overwriting
`[1]` responds `DUPLICATE` with the new document readable, and writing
the fresh key `[2]` responds `STORED`. -/
theorem C5_set_get_round_trip_witness :
    rdb_get [1] (rdb_set [1] (.atom (.num 2)) 5
        (fun k => if k = [1] then some (serialize (.atom (.num 1))) else none)).state
      = some (.atom (.num 2)) ∧
    (rdb_set [1] (.atom (.num 2)) 5
        (fun k => if k = [1] then some (serialize (.atom (.num 1))) else none)).response
      = .DUPLICATE ∧
    (rdb_set [2] (.atom (.num 3)) 5
        (fun k => if k = [1] then some (serialize (.atom (.num 1))) else none)).response
      = .STORED := by
  refine ⟨(C5_set_get_round_trip _ [1] _ 5).1,
          (C5_set_get_round_trip _ [1] (.atom (.num 2)) 5).2.1 (by decide),
          (C5_set_get_round_trip _ [2] (.atom (.num 3)) 5).2.2 (by decide)⟩

/-- C6: for every key `k`, after `delete(k, t)` a subsequent `get(k)`
returns `none`; `delete` on a present key removes the entry and
responds `DELETED`; `delete` on an absent key responds `MISSING` and
leaves the store state completely unchanged. -/
theorem C6_delete_get (st : Store) (key : Key) (t : Nat) :
    rdb_get key (rdb_delete key t st).state = none ∧
    ((st key).isSome →
      (rdb_delete key t st).response = .DELETED ∧
      (rdb_delete key t st).state key = none) ∧
    (st key = none →
      (rdb_delete key t st).response = .MISSING ∧
      (rdb_delete key t st).state = st) := by
  refine ⟨?_, ?_, ?_⟩
  · by_cases h : (st key).isSome
    · simp [rdb_delete, rdb_get, h]
    · simp only [Option.isSome] at h
      rcases h2 : st key with _ | bytes
      · simp [rdb_delete, rdb_get, h2]
      · rw [h2] at h; simp at h
  · intro h
    simp [rdb_delete, h]
  · intro h
    simp [rdb_delete, h, Option.isSome]

/-- Witness for C6 at a concrete store holding key `[1]`: deleting
`[1]` responds `DELETED` and makes it unreadable; deleting the absent
key `[2]` responds `MISSING` and leaves the state unchanged. -/
theorem C6_delete_get_witness :
    rdb_get [1] (rdb_delete [1] 7
        (fun k => if k = [1] then some (serialize (.atom .null)) else none)).state
      = none ∧
    (rdb_delete [1] 7
        (fun k => if k = [1] then some (serialize (.atom .null)) else none)).response
      = .DELETED ∧
    (rdb_delete [2] 7
        (fun k => if k = [1] then some (serialize (.atom .null)) else none)).response
      = .MISSING ∧
    (rdb_delete [2] 7
        (fun k => if k = [1] then some (serialize (.atom .null)) else none)).state
      = (fun k => if k = [1] then some (serialize (.atom .null)) else none) := by
  refine ⟨(C6_delete_get _ [1] 7).1,
          ((C6_delete_get _ [1] 7).2.1 (by decide)).1,
          ((C6_delete_get _ [2] 7).2.2 (by decide)).1,
          ((C6_delete_get _ [2] 7).2.2 (by decide)).2⟩

/-! ### Range erase (claim C7) -/

/-- C7: for every `key_range_t` handed to `rdb_erase_range`, the bounds
passed to the generic range-erase primitive are the exclusive-left /
inclusive-right pair described by the spec — the predecessor of the
left bound, the predecessor of the right bound when the right side is
bounded, and an unbounded right side passed through as unbounded —
whenever the bounded keys involved have predecessors. -/
theorem C7_erase_range_bounds (keys : KeyRangeT)
    (h : keys.right.unbounded = false → (store_key_decrement keys.right.key).isSome) :
    rdb_erase_range_bounds keys = erase_bounds_spec keys := by
  rcases keys with ⟨l, ⟨ub, rk⟩⟩
  cases ub with
  | false =>
    rcases h2 : store_key_decrement rk with _ | p
    · have := h rfl
      rw [h2] at this
      simp at this
    · simp [rdb_erase_range_bounds, erase_bounds_spec, h2]
  | true =>
    simp [rdb_erase_range_bounds, erase_bounds_spec]

/-- Witness for C7 on the concrete range `[[5], ([7], bounded))`: both
keys have predecessors and the conversion matches the spec's
description. -/
theorem C7_erase_range_bounds_witness :
    (store_key_decrement ((⟨[5], ⟨false, [7]⟩⟩ : KeyRangeT).right.key)).isSome ∧
    rdb_erase_range_bounds ⟨[5], ⟨false, [7]⟩⟩ =
      erase_bounds_spec ⟨[5], ⟨false, [7]⟩⟩ := by
  exact ⟨by decide, C7_erase_range_bounds ⟨[5], ⟨false, [7]⟩⟩ (fun _ => by decide)⟩

/-! ### Backfill (claim C10) -/

/-- C10: when the traversal primitive behaves correctly — every event
it delivers lies within the requested range — no `rassert` in
`agnostic_rdb_backfill_callback_t` fires, and every key or key range
forwarded to the user callback lies within the requested range. -/
theorem C10_backfill_callbacks_in_range (kr : KeyRangeT)
    (events : List BackfillEvent)
    (h : ∀ e ∈ events, backfill_event_ok kr e = true) :
    ∃ outs, rdb_backfill kr events = some outs ∧
      ∀ o ∈ outs, backfill_out_in_range kr o = true := by
  induction events with
  | nil => exact ⟨[], rfl, by simp⟩
  | cons e rest ih =>
    obtain ⟨outs, houts, hall⟩ := ih (fun x hx => h x (List.mem_cons_of_mem _ hx))
    have he := h e (List.mem_cons_self _ _)
    cases e with
    | delete_range range =>
      simp only [backfill_event_ok] at he
      refine ⟨.on_delete_range range :: outs, ?_, ?_⟩
      · simp [rdb_backfill, handle_backfill_event, he, houts]
      · intro o ho
        rcases List.mem_cons.mp ho with h1 | h1
        · subst h1; simpa [backfill_out_in_range] using he
        · exact hall o h1
    | deletion key recency =>
      simp only [backfill_event_ok] at he
      refine ⟨.on_deletion key recency :: outs, ?_, ?_⟩
      · simp [rdb_backfill, handle_backfill_event, he, houts]
      · intro o ho
        rcases List.mem_cons.mp ho with h1 | h1
        · subst h1; simpa [backfill_out_in_range] using he
        · exact hall o h1
    | pair key value recency =>
      simp only [backfill_event_ok] at he
      refine ⟨.on_keyvalue ⟨key, value, recency⟩ :: outs, ?_, ?_⟩
      · simp [rdb_backfill, handle_backfill_event, he, houts]
      · intro o ho
        rcases List.mem_cons.mp ho with h1 | h1
        · subst h1; simpa [backfill_out_in_range] using he
        · exact hall o h1

/-- Witness for C10 on the concrete range `[[1], ([9], bounded))` and a
three-event traversal (a deletion, a key/value pair and a deleted
subrange), all inside the range: the wrapped callback forwards them
all. -/
theorem C10_backfill_callbacks_in_range_witness :
    (rdb_backfill ⟨[1], ⟨false, [9]⟩⟩
      [.deletion [2] 3, .pair [3] (.atom .null) 4,
       .delete_range ⟨[2], ⟨false, [5]⟩⟩]).isSome = true := by
  obtain ⟨outs, houts, -⟩ :=
    C10_backfill_callbacks_in_range ⟨[1], ⟨false, [9]⟩⟩
      [.deletion [2] 3, .pair [3] (.atom .null) 4,
       .delete_range ⟨[2], ⟨false, [5]⟩⟩]
      (by decide)
  simp [houts]

/-! ### Transform pipeline (claims C8, C9) -/

/-- C8: for every document and every RangeFilter step, the source's
`Builtin_Range` case emits `[doc]` exactly when the spec's emission
condition holds — the attribute is present and its canonical key lies
within the range formed from the evaluated bounds, an absent bound
being unbounded on its side (including both bounds absent), and an
absent attribute yielding no emission. -/
theorem C8_range_filter (attrname : List Nat)
    (lowerbound upperbound : Option CJson) (json : CJson) :
    transform_visitor (.range attrname lowerbound upperbound) json =
      (if range_filter_spec_emits attrname lowerbound upperbound json
       then [json] else []) := by
  cases hv : getObjectItem json attrname with
  | none =>
    cases lowerbound <;> cases upperbound <;>
      simp [transform_visitor, range_filter_spec_emits, hv]
  | some val =>
    cases lowerbound <;> cases upperbound <;>
      simp [transform_visitor, range_filter_spec_emits, hv,
        BoundsRange.contains_key]

/-- Folding a per-document emitter over a list, appending onto an
accumulator, produces the accumulator followed by the concatenation of
the per-document outputs (the shape of `handle_pair`'s inner transform
loop). -/
theorem foldl_append_eq_join (f : CJson → List CJson) (docs : List CJson)
    (acc : List CJson) :
    docs.foldl (fun tmp jt => tmp ++ f jt) acc = acc ++ (docs.map f).flatten := by
  induction docs generalizing acc with
  | nil => simp
  | cons d ds ih => simp [ih, List.append_assoc]

/-- C9: for every input document sequence and every ConcatMap step, the
step's output is the in-order concatenation of the per-input streams
(order preserved within each input's stream and across successive
inputs), so the emitted count equals the sum of the per-input stream
lengths. -/
theorem C9_concatmap_count_and_order (mapping : CJson → List CJson)
    (docs : List CJson) :
    apply_step_to_list (.concatMap mapping) docs = (docs.map mapping).flatten ∧
    (apply_step_to_list (.concatMap mapping) docs).length =
      (docs.map (fun d => (mapping d).length)).sum := by
  have h : apply_step_to_list (.concatMap mapping) docs = (docs.map mapping).flatten := by
    simpa [apply_step_to_list, transform_visitor]
      using foldl_append_eq_join (fun jt => mapping jt) docs []
  refine ⟨h, ?_⟩
  rw [h, List.length_flatten, List.map_map]
  rfl

/-! ### Range scan engine (claims C1-C4) -/

/-- C3: for every completed rget scan — any `maximum`, transform
pipeline, terminal configuration and entry sequence — the returned
`truncated` flag is true exactly when the scan's final running size
estimate reached or exceeded the fixed chunk-size budget.  The
equivalence holds uniformly in `maximum`, and the flag is computed from
the cumulative size alone, so it does not depend on whether the
`maximum` document count was reached. -/
theorem C3_truncated_iff_budget_reached (maximum : Nat)
    (transform : List TransformStep) (terminal : Option TerminalOp)
    (entries : List (Key × CJson)) :
    (rdb_rget_slice maximum transform terminal entries).truncated = true ↔
      rget_max_chunk_size ≤
        (rdb_rget_slice maximum transform terminal entries).cumulative_size := by
  simp only [rdb_rget_slice, ge_iff_le]
  split
  · next hge => simpa using hge
  · next hlt => simpa using hlt

/-- C2 counterexample: an rget without a terminal over one visited
entry whose ConcatMap pipeline emits two documents buffers two
documents but increases the running size estimate by the constant only
once — the estimate is 250, not 250 times the number of buffered
documents. -/
theorem C2_counterexample_two_docs_one_increment :
    (rdb_rget_slice 10 [.concatMap (fun j => [j, j])] none
        [([1], .atom .null)]).result = .stream [.atom .null, .atom .null] ∧
    ¬ (rdb_rget_slice 10 [.concatMap (fun j => [j, j])] none
        [([1], .atom .null)]).cumulative_size = 250 * 2 := by
  decide

/-- Without a terminal, one `handle_pair` call appends the pipeline
output to the stream and adds exactly the constant 250 to the running
size estimate, whatever the size of the pipeline output. -/
theorem handle_pair_no_terminal_adds_constant (maximum : Nat)
    (transform : List TransformStep) (st : CallbackState) (s : List CJson)
    (key : Key) (value : CJson) (hs : st.result = .stream s) :
    (handle_pair maximum transform none st key value).1.result
        = .stream (s ++ apply_transforms transform [value]) ∧
    (handle_pair maximum transform none st key value).1.cumulative_size
        = st.cumulative_size + 250 := by
  rcases st with ⟨res, lk, cum, oob⟩
  simp only [CallbackState.mk.injEq] at hs ⊢
  subst hs
  cases hgl : (s ++ apply_transforms transform [value]).getLast? <;>
    simp [handle_pair, estimate_rget_response_size, hgl]

/-- From a stream-result state, running the traversal without a
terminal adds exactly 250 to the cumulative size for each entry the
callback processes. -/
theorem run_traversal_cumulative_size (maximum : Nat)
    (transform : List TransformStep) (entries : List (Key × CJson)) :
    ∀ (st : CallbackState) (s : List CJson), st.result = .stream s →
      (run_traversal maximum transform none st entries).cumulative_size =
        st.cumulative_size +
          250 * traversal_processed_count maximum transform none st entries := by
  induction entries with
  | nil =>
    intro st s _
    simp [run_traversal, traversal_processed_count]
  | cons e rest ih =>
    intro st s hs
    obtain ⟨key, value⟩ := e
    obtain ⟨h1, h2⟩ :=
      handle_pair_no_terminal_adds_constant maximum transform st s key value hs
    simp only [run_traversal, traversal_processed_count]
    cases hc : (handle_pair maximum transform none st key value).2 with
    | true =>
      simp only [hc, if_true]
      rw [ih _ _ h1, h2]
      ring
    | false =>
      simp [hc, h2]

/-- C2 amended: in every rget scan without a terminal, the running size
estimate is increased by the constant 250 once per visited entry (not
once per output document), so on completion it equals 250 times the
number of entries the traversal handed to the callback, regardless of
how many documents each entry's pipeline emitted. -/
theorem C2_amended_constant_per_entry (maximum : Nat)
    (transform : List TransformStep) (entries : List (Key × CJson)) :
    (rdb_rget_slice maximum transform none entries).cumulative_size =
      250 * traversal_processed_count maximum transform none
        initial_callback_state entries := by
  have h := run_traversal_cumulative_size maximum transform entries
    initial_callback_state [] rfl
  simpa [rdb_rget_slice, initial_callback_state] using h

/-- C1: evaluation at the failing input.  An rget scan over two entries
with an empty pipeline and the Count terminal returns a count of 1, not
2: the terminal initializer is re-applied at every visited entry
(`handle_pair` line 403), resetting the accumulator, so only the last
entry's documents are counted.  The second conjunct shows that without
a terminal the same scan buffers both documents, i.e. two documents
reach the terminal position across the scan. -/
theorem C1_count_reset_between_entries :
    (rdb_rget_slice 10 [] (some .length)
        [([1], .atom (.num 1)), ([2], .atom (.num 2))]).result = .length 1 ∧
    (rdb_rget_slice 10 [] none
        [([1], .atom (.num 1)), ([2], .atom (.num 2))]).result
      = .stream [.atom (.num 1), .atom (.num 2)] := by
  decide

/-- C4: evaluation at the failing input.  In an rget scan without a
terminal whose first visited entry's pipeline emits zero documents (a
filter rejecting everything), the stream is still empty when
`handle_pair` reads `stream->back()` to update the size estimate, so
the access is out of bounds (undefined behaviour in the source),
contradicting the claim that the stream is non-empty at that point. -/
theorem C4_back_read_on_empty_stream :
    (run_traversal 10 [.filter (fun _ => false)] none initial_callback_state
        [([1], .atom .null)]).oob_back_access = true ∧
    (run_traversal 10 [.filter (fun _ => false)] none initial_callback_state
        [([1], .atom .null)]).result = .stream [] := by
  decide

end RdbBtree
